import Mathlib

/-!
Verification development for the RoseTTAFold-All-Atom inference driver
(`rf2aa/custom_class.py` and `rf2aa/data/preprocessing.py`).

The Python code is shallowly embedded: configuration objects and input
configurations become structures, the file system becomes an explicit list of
existing directories, external effects (subprocess runs, file writes, torch
checkpoint loading) become events in an explicit trace or oracle function
parameters, and Python exceptions become `Except String`.

Functions of the repository that are only called from the given sources but
whose bodies are not part of the sources (for example
`generate_msa_and_load_protein`, `recycle_step_legacy`, `merge_all`) are
modelled from the specification; each such definition carries a doc comment
starting with `Modelled from the spec:`.
-/

namespace RF2AA

open BigOperators

/-- Observable side effects of the driver, recorded as an explicit trace. -/
inductive Event where
  | rmtree (dir : String)
  | mkdir (dir : String)
  | subprocessRun (cmd : String)
  | torchLoad (path : String)
  | loadStateDict
  | modelForward
  | writeFile (path : String)
  | readFile (path : String)
deriving DecidableEq

/-- The file system, reduced to the set of existing directories (the only
file-system state the given sources branch on). -/
structure FileSys where
  dirs : List String
deriving DecidableEq

/-- `cfg.database_params` as composed by `ModelManager.load_config`. -/
structure DatabaseParams where
  sequencedb_ur30 : String
  sequencedb_bfd : String
  hhdb : String
  command : String
  num_cpus : Nat
  mem : Nat
deriving DecidableEq

/-- `cfg.loader_params`; only `MAXCYCLE` is read by the given sources. -/
structure LoaderParams where
  MAXCYCLE : Nat
deriving DecidableEq

/-- The hydra configuration fields read by the given sources. -/
structure Config where
  database_params : DatabaseParams
  loader_params : LoaderParams
  output_path : String
  job_name : String
  residue_replacement : Option String
  deterministic : Option Bool
deriving DecidableEq

/-- The per-chain MSA output directory `output_path/msa_results/<chain>`
used by `make_msa`. -/
def msaOutDir (cfg : Config) (chain : String) : String :=
  cfg.output_path ++ "/msa_results/" ++ chain

/-- The shell command line built by `make_msa`:
`./command fasta_file out_dir num_cpus ram_gb template_database
ur30_search_base bfd_search_base`. -/
def search_command (cfg : Config) (fasta_file out_dir : String) : String :=
  "./" ++ cfg.database_params.command ++ " " ++ fasta_file ++ " " ++ out_dir ++ " " ++
    toString cfg.database_params.num_cpus ++ " " ++ toString cfg.database_params.mem ++ " " ++
    cfg.database_params.hhdb ++ " " ++ cfg.database_params.sequencedb_ur30 ++ " " ++
    cfg.database_params.sequencedb_bfd

/-- The triple of result-file paths `(t000_.msa0.a3m, t000_.hhr, t000_.atab)`
returned by `make_msa` for a chain. -/
def msaPaths (cfg : Config) (chain : String) : String × String × String :=
  (msaOutDir cfg chain ++ "/t000_.msa0.a3m",
   msaOutDir cfg chain ++ "/t000_.hhr",
   msaOutDir cfg chain ++ "/t000_.atab")

/-- `make_msa` from `rf2aa/data/preprocessing.py`.
`shutil.rmtree(out_dir)` is unconditional: when `out_dir` does not exist it
raises `FileNotFoundError`; otherwise the directory is removed and recreated
(`mkdir(parents=True, exist_ok=True)`), the search command is run as a shell
subprocess whose result is bound to `_` and discarded (`subprocessExit` is the
oracle giving the exit status of a command), and the three output paths are
returned unconditionally. -/
def make_msa (fasta_file chain : String) (cfg : Config) (fs : FileSys)
    (subprocessExit : String → Int) :
    List Event × Except String (FileSys × (String × String × String)) :=
  let out_dir := msaOutDir cfg chain
  if out_dir ∈ fs.dirs then
    let fs := FileSys.mk (fs.dirs.filter (fun d => d ≠ out_dir))
    let fs := FileSys.mk (out_dir :: fs.dirs)
    let cmd := search_command cfg fasta_file out_dir
    let _ := subprocessExit cmd
    ([Event.rmtree out_dir, Event.mkdir out_dir, Event.subprocessRun cmd],
     Except.ok (fs, msaPaths cfg chain))
  else
    ([], Except.error ("FileNotFoundError: " ++ out_dir))

/-- A loaded protein input. Modelled from the spec: the loader in
`rf2aa/data/protein.py` is not part of the given sources, so the loaded value
records the fasta file it came from and the MSA result paths returned by
`make_msa`. -/
structure ProteinInput where
  fasta_file : String
  msa : String × String × String
deriving DecidableEq

/-- Modelled from the spec: `generate_msa_and_load_protein`
(`rf2aa/data/protein.py`, not among the given sources) produces the MSA for a
protein chain via `make_msa` on the fasta file of the chain and loads the
protein from the resulting alignment files. -/
def generate_msa_and_load_protein (fasta_file chain : String) (cfg : Config)
    (fs : FileSys) (subprocessExit : String → Int) :
    List Event × Except String (FileSys × ProteinInput) :=
  match make_msa fasta_file chain cfg fs subprocessExit with
  | (tr, Except.error e) => (tr, Except.error e)
  | (tr, Except.ok (fs, paths)) => (tr, Except.ok (fs, ProteinInput.mk fasta_file paths))

/-- A loaded nucleic-acid input. Modelled from the spec: `load_nucleic_acid`
(`rf2aa/data/nucleic_acid.py`, not among the given sources) loads a nucleic
acid from a fasta string and an input type. -/
structure NAInput where
  fasta : String
  input_type : String
deriving DecidableEq

/-- Modelled from the spec: `load_nucleic_acid` records its arguments. -/
def load_nucleic_acid (fasta input_type : String) : NAInput :=
  NAInput.mk fasta input_type

/-- A loaded small-molecule input: either loaded by `load_small_molecule`
from a plain input, or produced by `load_covalent_molecules` (payload kept
opaque). -/
inductive SMInput where
  | loaded (input : String) (input_type : String)
  | covalent (payload : String)
deriving DecidableEq

/-- Modelled from the spec: `load_small_molecule`
(`rf2aa/data/small_molecule.py`, not among the given sources) loads a small
molecule from its input string and input type. -/
def load_small_molecule (input input_type : String) : SMInput :=
  SMInput.loaded input input_type

/-- A residue to atomize: chain letter, residue number, residue name
(per the comment in `parse_inference_config`). -/
abbrev Residue := String × Nat × String

/-- One entry of `input_config.protein_inputs`. -/
structure ProteinInputSpec where
  fasta_file : String
deriving DecidableEq

/-- One entry of `input_config.na_inputs`. -/
structure NAInputSpec where
  fasta : String
  input_type : String
deriving DecidableEq

/-- One entry of `input_config.sm_inputs`; `has_is_leaving` records whether
the key `is_leaving` is present in the entry. -/
structure SMInputSpec where
  input : String
  input_type : String
  has_is_leaving : Bool
deriving DecidableEq

/-- The inference input configuration consumed by `parse_inference_config`.
Mappings are ordered association lists, matching Python dict iteration
order; `covale_inputs` is only tested against `None` by the given source, so
its payload is kept opaque. -/
structure InputConfig where
  protein_inputs : Option (List (String × ProteinInputSpec))
  na_inputs : Option (List (String × NAInputSpec))
  sm_inputs : Option (List (String × SMInputSpec))
  covale_inputs : Option String
deriving DecidableEq

/-- The merged raw data. Modelled from the spec: `merge_all`
(`rf2aa/data/merge_inputs.py`, not among the given sources) assembles the
loaded inputs into a unified representation; the model records its
arguments. -/
structure RawData where
  protein_inputs : List (String × ProteinInput)
  na_inputs : List (String × NAInput)
  sm_inputs : List (String × SMInput)
  residues_to_atomize : List Residue
  deterministic : Bool
deriving DecidableEq

/-- Modelled from the spec: `merge_all` assembles the parsed inputs. -/
def merge_all (protein_inputs : List (String × ProteinInput))
    (na_inputs : List (String × NAInput)) (sm_inputs : List (String × SMInput))
    (residues_to_atomize : List Residue) (deterministic : Bool) : RawData :=
  RawData.mk protein_inputs na_inputs sm_inputs residues_to_atomize deterministic

/-- The protein loop of `parse_inference_config`: for each chain, raise
`ValueError` on a duplicate chain name, raise `ValueError` on a chain name
longer than one character, otherwise append the chain and run
`generate_msa_and_load_protein` on the fasta file of the chain. The returned
trace holds the events emitted before a raise. -/
def parseProteinLoop (cfg : Config) (subprocessExit : String → Int) :
    List (String × ProteinInputSpec) → List String → FileSys →
    List Event × Except String (FileSys × List String × List (String × ProteinInput))
  | [], chains, fs => ([], Except.ok (fs, chains, []))
  | (chain, s) :: rest, chains, fs =>
    if chain ∈ chains then
      ([], Except.error ("Duplicate chain found with name: " ++ chain ++
        ". Please specify unique chain names"))
    else if chain.length > 1 then
      ([], Except.error ("Chain name must be a single character, found chain with name: " ++
        chain))
    else
      match generate_msa_and_load_protein s.fasta_file chain cfg fs subprocessExit with
      | (tr, Except.error e) => (tr, Except.error e)
      | (tr, Except.ok (fs, protein_input)) =>
        match parseProteinLoop cfg subprocessExit rest (chains ++ [chain]) fs with
        | (tr2, Except.error e) => (tr ++ tr2, Except.error e)
        | (tr2, Except.ok (fs2, chains2, acc)) =>
          (tr ++ tr2, Except.ok (fs2, chains2, (chain, protein_input) :: acc))

/-- The nucleic-acid loop of `parse_inference_config`: every chain is loaded
unconditionally via `load_nucleic_acid`; no chain-name checks are applied. -/
def parseNALoop : List (String × NAInputSpec) → List (String × NAInput)
  | [] => []
  | (chain, s) :: rest => (chain, load_nucleic_acid s.fasta s.input_type) :: parseNALoop rest

/-- The small-molecule loop of `parse_inference_config`, starting from the
accumulator already holding the covalent molecules: raise `ValueError` on an
input type other than smiles or sdf, skip a chain already present (processed
as covale), raise `ValueError` when `is_leaving` is present, otherwise load
the molecule and add it. -/
def parseSMLoop : List (String × SMInputSpec) → List (String × SMInput) →
    Except String (List (String × SMInput))
  | [], acc => Except.ok acc
  | (chain, s) :: rest, acc =>
    if s.input_type ∉ ["smiles", "sdf"] then
      Except.error "Small molecule input type must be smiles or sdf"
    else if (acc.lookup chain).isSome then
      parseSMLoop rest acc
    else if s.has_is_leaving then
      Except.error "Leaving atoms are not supported for non-covalently bonded molecules"
    else
      parseSMLoop rest (acc ++ [(chain, load_small_molecule s.input s.input_type)])

/-- The oracle type for `load_covalent_molecules`
(`rf2aa/data/covale.py`, not among the given sources): from the loaded
protein inputs and the input configuration it produces the covalent
small-molecule entries and the residues to atomize. -/
def LoadCov :=
  List (String × ProteinInput) → InputConfig → List (String × SMInput) × List Residue

/-- The protein phase of `parse_inference_config`: nothing happens when
`protein_inputs` is `None`, otherwise the protein loop runs. -/
def proteinPhase (cfg : Config) (subprocessExit : String → Int) (fs : FileSys) :
    Option (List (String × ProteinInputSpec)) →
    List Event × Except String (FileSys × List String × List (String × ProteinInput))
  | none => ([], Except.ok (fs, [], []))
  | some ps => parseProteinLoop cfg subprocessExit ps [] fs

/-- The nucleic-acid phase: nothing happens when `na_inputs` is `None`. -/
def naPhase : Option (List (String × NAInputSpec)) → List (String × NAInput)
  | none => []
  | some ns => parseNALoop ns

/-- The covalent phase: when `covale_inputs` is not `None`,
`load_covalent_molecules` runs on the protein inputs and the input
configuration; its results seed `sm_inputs` and `residues_to_atomize`. -/
def covalePhase (load_cov : LoadCov) (protein_inputs : List (String × ProteinInput))
    (ic : InputConfig) : List (String × SMInput) × List Residue :=
  match ic.covale_inputs with
  | none => ([], [])
  | some _ => load_cov protein_inputs ic

/-- The small-molecule phase: when `sm_inputs` is not `None` the
small-molecule loop runs on top of the covalent entries. -/
def smPhase (ic : InputConfig) (cov_sm : List (String × SMInput)) :
    Except String (List (String × SMInput)) :=
  match ic.sm_inputs with
  | none => Except.ok cov_sm
  | some ss => parseSMLoop ss cov_sm

/-- `ModelManager.parse_inference_config`: protein inputs (with chain-name
validation and MSA generation), then nucleic acids, then covalent molecules,
then plain small molecules (skipping chains already processed as covale),
then the `residue_replacement` NotImplementedError check, then `merge_all`. -/
def parse_inference_config (cfg : Config) (deterministic : Bool)
    (subprocessExit : String → Int) (load_cov : LoadCov) (fs : FileSys)
    (ic : InputConfig) : List Event × Except String (FileSys × RawData) :=
  match proteinPhase cfg subprocessExit fs ic.protein_inputs with
  | (trP, Except.error e) => (trP, Except.error e)
  | (trP, Except.ok (fs1, _chains, protein_inputs)) =>
    let na_inputs := naPhase ic.na_inputs
    let cov := covalePhase load_cov protein_inputs ic
    match smPhase ic cov.1 with
    | Except.error e => (trP, Except.error e)
    | Except.ok sm_inputs =>
      match cfg.residue_replacement with
      | some _ => (trP, Except.error "NotImplementedError: Modres inference is not implemented")
      | none =>
        (trP, Except.ok (fs1, merge_all protein_inputs na_inputs sm_inputs cov.2 deterministic))

/-- `torch.linspace(start, stop, steps)`: `steps` evenly spaced values from
`start` to `stop` inclusive; with a single step the value is `start`. -/
noncomputable def linspace (start stop : ℝ) (steps : ℕ) (k : ℕ) : ℝ :=
  if steps = 1 then start else start + k * ((stop - start) / ((steps : ℝ) - 1))

/-- `torch.nn.Softmax` along a dimension of size `n`. -/
noncomputable def softmax {n : ℕ} (x : Fin n → ℝ) (i : Fin n) : ℝ :=
  Real.exp (x i) / ∑ j : Fin n, Real.exp (x j)

/-- `ModelManager.lddt_unbin`: with `nbin = pred_lddt.shape[1]` and
`bin_step = 1.0 / nbin`, the bins are `linspace(bin_step, 1.0, nbin)`, the
logits are softmaxed over dimension 1, and the result is the expectation of
the bins, summed over dimension 1. -/
noncomputable def lddt_unbin {B nbin L : ℕ} (pred_lddt : Fin B → Fin nbin → Fin L → ℝ) :
    Fin B → Fin L → ℝ :=
  let bin_step : ℝ := 1 / (nbin : ℝ)
  let lddt_bins := linspace bin_step 1 nbin
  fun b l => ∑ k : Fin nbin, lddt_bins k * softmax (fun j => pred_lddt b j l) k

/-- `ModelManager.pae_unbin`: bins are
`linspace(bin_step*0.5, bin_step*nbin - bin_step*0.5, nbin)` (the call site
uses the default `bin_step = 0.5`), softmax over dimension 1, expectation. -/
noncomputable def pae_unbin {B nbin L : ℕ}
    (logits_pae : Fin B → Fin nbin → Fin L → Fin L → ℝ) (bin_step : ℝ) :
    Fin B → Fin L → Fin L → ℝ :=
  let bins := linspace (bin_step * 0.5) (bin_step * (nbin : ℝ) - bin_step * 0.5) nbin
  fun b i j => ∑ k : Fin nbin, bins k * softmax (fun q => logits_pae b q i j) k

/-- `ModelManager.pde_unbin`: same shape as `pae_unbin` (the call site uses
the default `bin_step = 0.3`). -/
noncomputable def pde_unbin {B nbin L : ℕ}
    (logits_pde : Fin B → Fin nbin → Fin L → Fin L → ℝ) (bin_step : ℝ) :
    Fin B → Fin L → Fin L → ℝ :=
  let bins := linspace (bin_step * 0.5) (bin_step * (nbin : ℝ) - bin_step * 0.5) nbin
  fun b i j => ∑ k : Fin nbin, bins k * softmax (fun q => logits_pde b q i j) k

/-- A Python float: either NaN or a real value. -/
inductive PyFloat where
  | nan
  | val (x : ℝ)

/-- Nested numeric data, as produced by `tensor.tolist()`. -/
inductive PyData where
  | scalar (x : ℝ)
  | arr (l : List PyData)

/-- A Python value stored in the error dictionary: a tensor (carrying its
data), a float, a nested list (the result of `tolist`), or `None`. -/
inductive PyVal where
  | tensor (d : PyData)
  | float (f : PyFloat)
  | pylist (d : PyData)
  | pynone

/-- The data of a rank-2 tensor. -/
def tens2Data {A B : ℕ} (t : Fin A → Fin B → ℝ) : PyData :=
  PyData.arr (List.ofFn fun a => PyData.arr (List.ofFn fun b => PyData.scalar (t a b)))

/-- The data of a rank-3 tensor. -/
def tens3Data {A B C : ℕ} (t : Fin A → Fin B → Fin C → ℝ) : PyData :=
  PyData.arr (List.ofFn fun a =>
    PyData.arr (List.ofFn fun b => PyData.arr (List.ofFn fun c => PyData.scalar (t a b c))))

/-- The data of a boolean rank-3 tensor (such as `same_chain`), with the
usual 0/1 numeric view. -/
def boolTens3Data {A B C : ℕ} (t : Fin A → Fin B → Fin C → Bool) : PyData :=
  tens3Data (fun a b c => if t a b c then 1 else 0)

/-- `float(t.mean())` for a rank-2 tensor: the mean of all entries; the mean
of an empty tensor is NaN. -/
noncomputable def fullMean2 {A B : ℕ} (t : Fin A → Fin B → ℝ) : PyFloat :=
  if A * B = 0 then PyFloat.nan
  else PyFloat.val ((∑ a : Fin A, ∑ b : Fin B, t a b) / ((A : ℝ) * (B : ℝ)))

/-- `float(t.mean())` for a rank-3 tensor. -/
noncomputable def fullMean3 {A B C : ℕ} (t : Fin A → Fin B → Fin C → ℝ) : PyFloat :=
  if A * B * C = 0 then PyFloat.nan
  else PyFloat.val
    ((∑ a : Fin A, ∑ b : Fin B, ∑ c : Fin C, t a b c) / ((A : ℝ) * (B : ℝ) * (C : ℝ)))

/-- `float(t[mask].mean())` for a rank-2 tensor under a boolean mask: the
mean over the selected entries; the mean of an empty selection is NaN. -/
noncomputable def maskedMean {L : ℕ} (t : Fin L → Fin L → ℝ) (mask : Fin L → Fin L → Bool) :
    PyFloat :=
  let s := Finset.univ.filter (fun p : Fin L × Fin L => mask p.1 p.2)
  if s.card = 0 then PyFloat.nan
  else PyFloat.val ((∑ p ∈ s, t p.1 p.2) / (s.card : ℝ))

/-- `ModelManager.calc_pred_err`. The per-residue metrics are unbinned from
the logits; the masks select atomized (small-molecule), protein-protein and
mixed residue pairs. The dict literal evaluates `pae.cpu()` and `pde.cpu()`
unconditionally, so a `None` logit tensor raises `AttributeError` there; on
the surviving branch the source guards `if pae is not None` are necessarily
true, and the corresponding entries are the computed floats. `is_atom`
(`rf2aa/util.py`, not among the given sources) is the token-level
atom predicate, taken as a parameter. -/
noncomputable def calc_pred_err {nl np nd L : ℕ} (is_atom : ℤ → Bool)
    (pred_lddts : Fin 1 → Fin nl → Fin L → ℝ)
    (logit_pae : Option (Fin 1 → Fin np → Fin L → Fin L → ℝ))
    (logit_pde : Option (Fin 1 → Fin nd → Fin L → Fin L → ℝ))
    (seq : Fin 1 → Fin L → ℤ) : Except String (List (String × PyVal)) :=
  let plddts := lddt_unbin pred_lddts
  let pae := logit_pae.map (fun t => pae_unbin t 0.5)
  let pde := logit_pde.map (fun t => pde_unbin t 0.3)
  let sm_mask : Fin L → Bool := fun i => is_atom (seq 0 i)
  let prot_mask_2d : Fin L → Fin L → Bool := fun i j => !sm_mask j && !sm_mask i
  let inter_mask_2d : Fin L → Fin L → Bool :=
    fun i j => (sm_mask j && !sm_mask i) || (!sm_mask j && sm_mask i)
  match pae with
  | none => Except.error "AttributeError: NoneType object has no attribute cpu"
  | some paeT =>
    match pde with
    | none => Except.error "AttributeError: NoneType object has no attribute cpu"
    | some pdeT =>
      Except.ok
        [("plddts", PyVal.tensor (tens2Data plddts)),
         ("pae", PyVal.tensor (tens3Data paeT)),
         ("pde", PyVal.tensor (tens3Data pdeT)),
         ("mean_plddt", PyVal.float (fullMean2 plddts)),
         ("mean_pae", PyVal.float (fullMean3 paeT)),
         ("pae_prot", PyVal.float (maskedMean (fun i j => paeT 0 i j) prot_mask_2d)),
         ("pae_inter", PyVal.float (maskedMean (fun i j => paeT 0 i j) inter_mask_2d))]

/-- Python dict assignment `d[k] = v` on an ordered association list:
replace the value when the key is present, otherwise append. -/
def dictSet (d : List (String × PyVal)) (k : String) (v : PyVal) : List (String × PyVal) :=
  if (d.lookup k).isSome then d.map (fun p => if p.1 = k then (k, v) else p)
  else d ++ [(k, v)]

/-- Python `d.pop(k, None)` restricted to its effect on the dict. -/
def dictPop (d : List (String × PyVal)) (k : String) : List (String × PyVal) :=
  d.filter (fun p => p.1 ≠ k)

/-- `value.detach().cpu().numpy().tolist()` applied when the value is a
tensor, the identity otherwise (the first comprehension of
`write_outputs`). -/
def tensorToList : PyVal → PyVal
  | PyVal.tensor t => PyVal.pylist t
  | v => v

/-- `v if not isinstance(v, float) or not np.isnan(v) else None` (the second
comprehension of `write_outputs`). -/
def nanToNone : PyVal → PyVal
  | PyVal.float PyFloat.nan => PyVal.pynone
  | v => v

/-- The two comprehensions of `write_outputs` applied in order. -/
def errDictPostprocess (d : List (String × PyVal)) : List (String × PyVal) :=
  (d.map (fun p => (p.1, tensorToList p.2))).map (fun p => (p.1, nanToNone p.2))

/-- The error-dictionary processing of `write_outputs`: add `same_chain`,
pop `same_chain`, turn tensors into nested lists, turn NaN floats into
`None`. -/
def write_outputs_err_dict (d : List (String × PyVal)) (same_chain : PyVal) :
    List (String × PyVal) :=
  errDictPostprocess (dictPop (dictSet d "same_chain" same_chain) "same_chain")

/-- The input features constructed by `raw_data.construct_features` (the
construction itself, in `rf2aa/data/data_loader.py`, is not among the given
sources and is taken as an oracle). Only the fields read by the given sources
are modelled; `batched` and `device` record the in-place mutations
`add_batch_dim` and `to(device)`. -/
structure InputFeats (L : ℕ) where
  seq_unmasked : Fin 1 → Fin L → ℤ
  bond_feats : Fin 1 → Fin L → Fin L → ℤ
  same_chain : Fin 1 → Fin L → Fin L → Bool
  batched : Bool
  device : String

/-- The 12-tuple returned by the network forward pass, destructured by
`write_outputs`; components never read by the given sources are `Unit`. -/
structure Outputs (L nl np nd : ℕ) where
  logits : Unit
  logits_aa : Unit
  logits_pae : Option (Fin 1 → Fin np → Fin L → Fin L → ℝ)
  logits_pde : Option (Fin 1 → Fin nd → Fin L → Fin L → ℝ)
  p_bind : Unit
  xyz : Unit
  alpha_s : Unit
  xyz_allatom : Unit
  lddt : Fin 1 → Fin nl → Fin L → ℝ
  extra1 : Unit
  extra2 : Unit
  extra3 : Unit

/-- Modelled from the spec: `recycle_step_legacy`
(`rf2aa/training/recycling.py`, not among the given sources) re-feeds the
output of the model back as input for a fixed number of cycles (`feed` builds
the next input from the previous output) and returns the last output; the
trace records one `modelForward` event per cycle. -/
def recycle_step_legacy {α β : Type} (model : α → β) (feed : β → α → α) :
    ℕ → α → List Event × Option β
  | 0, _ => ([], none)
  | n + 1, input =>
    (Event.modelForward :: (recycle_step_legacy model feed n (feed (model input) input)).1,
     some (((recycle_step_legacy model feed n (feed (model input) input)).2).getD (model input)))

/-- `ModelManager.run_model_forward`: mutate the features in place
(`add_batch_dim`, `to(device)`; `asdict` and the `long` casts keep the
integer tensors integer), then run `recycle_step_legacy` for
`config.loader_params.MAXCYCLE` cycles. Returns the mutated features, the
trace and the final outputs. -/
def run_model_forward {L nl np nd : ℕ} (cfg : Config)
    (model : InputFeats L → Outputs L nl np nd)
    (feed : Outputs L nl np nd → InputFeats L → InputFeats L) (device : String)
    (input_feats : InputFeats L) :
    InputFeats L × List Event × Option (Outputs L nl np nd) :=
  let input_feats := { input_feats with batched := true }
  let input_feats := { input_feats with device := device }
  let r := recycle_step_legacy model feed cfg.loader_params.MAXCYCLE input_feats
  (input_feats, r.1, r.2)

/-- The weights of a trained network (`model_state_dict`), kept symbolic. -/
def StateDict := List (String × ℤ)

/-- The object returned by `torch.load` on a checkpoint file; only the key
`model_state_dict` is read by the given sources. -/
structure Checkpoint where
  model_state_dict : StateDict

/-- The network object: `RoseTTAFoldModule(...).to(device)` starts with no
loaded weights; `load_state_dict` installs the checkpoint weights. -/
structure RFModel where
  device : String
  state_dict : Option StateDict

/-- `ModelManager.load_model`: instantiate `RoseTTAFoldModule` on the
device, `torch.load` the checkpoint (oracle `torchLoad`), and load its
`model_state_dict` into the network. -/
def load_model (device : String) (torchLoad : String → Checkpoint) (checkpoint_path : String) :
    RFModel × List Event :=
  let model : RFModel := RFModel.mk device none
  let checkpoint := torchLoad checkpoint_path
  ({ model with state_dict := some checkpoint.model_state_dict },
   [Event.torchLoad checkpoint_path, Event.loadStateDict])

/-- `ModelManager.load_config`: compose the hydra `base` configuration
(taken as the parameter `base`) and override the four database parameters
with the checkpoint-relative paths and the MSA command. -/
def load_config (base : Config) (checkpoint_path sequencedb_ur30 sequencedb_bfd
    template_db msa_command : String) : Config :=
  { base with database_params :=
    { base.database_params with
        sequencedb_ur30 := checkpoint_path ++ "/" ++ sequencedb_ur30
        sequencedb_bfd := checkpoint_path ++ "/" ++ sequencedb_bfd
        hhdb := checkpoint_path ++ "/" ++ template_db
        command := msa_command } }

/-- The `ModelManager` state after `__init__`. -/
structure ModelManager where
  config : Config
  device : String
  deterministic : Bool
  model : RFModel

/-- `ModelManager.__init__`: load the configuration, read the chemical data,
ffindex database and converter (external setup without effect on the model
state), read `deterministic` from the configuration with default `False`,
and call `load_model` on `checkpoint_path / checkpoint_weights`. -/
def ModelManager.construct (device : String) (checkpoint_path checkpoint_weights
    template_db sequencedb_ur30 sequencedb_bfd msa_command : String) (base : Config)
    (torchLoad : String → Checkpoint) : ModelManager × List Event :=
  let config := load_config base checkpoint_path sequencedb_ur30 sequencedb_bfd
    template_db msa_command
  let deterministic := config.deterministic.getD false
  let m := load_model device torchLoad (checkpoint_path ++ "/" ++ checkpoint_weights)
  (ModelManager.mk config device deterministic m.1, m.2)

/-- The arguments of the `writepdb` call in `write_outputs` (`writepdb`
itself, in `rf2aa/util.py`, is not among the given sources; the string it
writes is produced by an oracle). -/
structure WritePdbCall (L : ℕ) where
  filename : String
  xyz_allatom : Unit
  seq_unmasked : Fin 1 → Fin L → ℤ
  bond_feats : Fin 1 → Fin L → Fin L → ℤ
  bfacts : PyVal
  chain_Ls : List ℕ

/-- `plddts[0]`: the first batch slice of a tensor value. -/
def pyGetItem0 : PyVal → PyVal
  | PyVal.tensor (PyData.arr (x :: _)) => PyVal.tensor x
  | v => v

/-- The result of `write_outputs` and `infer`: a dict with a string entry and
a dict entry. -/
inductive ResVal where
  | str (s : String)
  | dict (d : List (String × PyVal))

/-- `ModelManager.write_outputs`: destructure the outputs, compute the error
dictionary via `calc_pred_err` (an `AttributeError` raised there
propagates), store `same_chain`, write the PDB file with `writepdb`
(`render` is the oracle for the written text; `ls_from_same_chain_2d`, from
`rf2aa/util.py`, is an oracle for the chain lengths), read the file back,
pop `same_chain`, convert tensors to nested lists and NaN floats to `None`,
and return the `pdb` / `error_dictionary` dict. -/
noncomputable def write_outputs {L nl np nd : ℕ} (cfg : Config) (is_atom : ℤ → Bool)
    (ls_from_same_chain_2d : (Fin 1 → Fin L → Fin L → Bool) → List ℕ)
    (render : WritePdbCall L → String) (input_feats : InputFeats L)
    (outputs : Outputs L nl np nd) : List Event × Except String (List (String × ResVal)) :=
  let seq_unmasked := input_feats.seq_unmasked
  let bond_feats := input_feats.bond_feats
  match calc_pred_err is_atom outputs.lddt outputs.logits_pae outputs.logits_pde seq_unmasked with
  | Except.error e => ([], Except.error e)
  | Except.ok err_dict0 =>
    let err_dict := dictSet err_dict0 "same_chain"
      (PyVal.tensor (boolTens3Data input_feats.same_chain))
    let plddts := (err_dict.lookup "plddts").getD PyVal.pynone
    let Ls := ls_from_same_chain_2d input_feats.same_chain
    let plddts := pyGetItem0 plddts
    let path := cfg.output_path ++ "/" ++ "pdb_result.pdb"
    let pdb_str := render (WritePdbCall.mk path () seq_unmasked bond_feats plddts Ls)
    let err_dict := dictPop err_dict "same_chain"
    let err_dict := err_dict.map (fun p => (p.1, tensorToList p.2))
    let err_dict := err_dict.map (fun p => (p.1, nanToNone p.2))
    ([Event.writeFile path, Event.readFile path],
     Except.ok [("pdb", ResVal.str pdb_str), ("error_dictionary", ResVal.dict err_dict)])

/-- `ModelManager.infer`: `parse_inference_config`, then
`construct_features` (oracle `constructF` for the external
`raw_data.construct_features`), then `run_model_forward`, then
`write_outputs`. -/
noncomputable def infer {L nl np nd : ℕ} (mgr : ModelManager)
    (subprocessExit : String → Int) (load_cov : LoadCov) (fs : FileSys)
    (constructF : RawData → InputFeats L) (model : InputFeats L → Outputs L nl np nd)
    (feed : Outputs L nl np nd → InputFeats L → InputFeats L) (is_atom : ℤ → Bool)
    (ls_from_same_chain_2d : (Fin 1 → Fin L → Fin L → Bool) → List ℕ)
    (render : WritePdbCall L → String) (ic : InputConfig) :
    List Event × Except String (List (String × ResVal)) :=
  let pr := parse_inference_config mgr.config mgr.deterministic subprocessExit load_cov fs ic
  match pr.2 with
  | Except.error e => (pr.1, Except.error e)
  | Except.ok (_fs1, raw) =>
    let input_feats := constructF raw
    let rm := run_model_forward mgr.config model feed mgr.device input_feats
    match rm.2.2 with
    | none => (pr.1 ++ rm.2.1, Except.error "recycling produced no output")
    | some outputs =>
      let wo := write_outputs mgr.config is_atom ls_from_same_chain_2d render rm.1 outputs
      (pr.1 ++ rm.2.1 ++ wo.1, wo.2)

/-- The dictionary built by `calc_pred_err` when both logit tensors are
present (used to state what the successful branch returns). -/
noncomputable def calcErrDict {nl np nd L : ℕ} (is_atom : ℤ → Bool)
    (pred_lddts : Fin 1 → Fin nl → Fin L → ℝ)
    (tp : Fin 1 → Fin np → Fin L → Fin L → ℝ)
    (td : Fin 1 → Fin nd → Fin L → Fin L → ℝ)
    (seq : Fin 1 → Fin L → ℤ) : List (String × PyVal) :=
  let plddts := lddt_unbin pred_lddts
  let paeT := pae_unbin tp 0.5
  let pdeT := pde_unbin td 0.3
  let sm_mask : Fin L → Bool := fun i => is_atom (seq 0 i)
  let prot_mask_2d : Fin L → Fin L → Bool := fun i j => !sm_mask j && !sm_mask i
  let inter_mask_2d : Fin L → Fin L → Bool :=
    fun i j => (sm_mask j && !sm_mask i) || (!sm_mask j && sm_mask i)
  [("plddts", PyVal.tensor (tens2Data plddts)),
   ("pae", PyVal.tensor (tens3Data paeT)),
   ("pde", PyVal.tensor (tens3Data pdeT)),
   ("mean_plddt", PyVal.float (fullMean2 plddts)),
   ("mean_pae", PyVal.float (fullMean3 paeT)),
   ("pae_prot", PyVal.float (maskedMean (fun i j => paeT 0 i j) prot_mask_2d)),
   ("pae_inter", PyVal.float (maskedMean (fun i j => paeT 0 i j) inter_mask_2d))]

/-- Concrete configuration used by the witness theorems. -/
def cfgW : Config :=
  Config.mk (DatabaseParams.mk "ur30" "bfd" "hhdb" "make_msa.sh" 4 64)
    (LoaderParams.mk 1) "out" "job" none none

/-- Concrete subprocess oracle used by the witness theorems. -/
def subW : String → Int := fun _ => 0

/-- Concrete file system used by the witness theorems: the MSA output
directory for chain `A` exists. -/
def fsW : FileSys := FileSys.mk ["out/msa_results/A"]

/-- Concrete `load_covalent_molecules` oracle used by the witness theorems. -/
def covW : LoadCov := fun _ _ => ([("L", SMInput.covalent "cov-ligand")], [])

/-- Input configuration with a single protein chain `A`. -/
def icPW : InputConfig :=
  InputConfig.mk (some [("A", ProteinInputSpec.mk "a.fa")]) none none none

/-- Input configuration with a covalent molecule and a plain small molecule
on the same chain `L`. -/
def icCW : InputConfig :=
  InputConfig.mk none none (some [("L", SMInputSpec.mk "CCO" "smiles" false)]) (some "covale")

/-- Empty input configuration. -/
def icEW : InputConfig := InputConfig.mk none none none none

/-- The raw data produced by parsing `icEW`. -/
def rawEW : RawData := RawData.mk [] [] [] [] false

/-- Concrete model manager used by the witness theorems. -/
def mgrW : ModelManager :=
  ModelManager.mk cfgW "cpu" false (RFModel.mk "cpu" (some []))

/-- Concrete feature constructor oracle. -/
def constructW : RawData → InputFeats 1 :=
  fun _ => InputFeats.mk (fun _ _ => 0) (fun _ _ _ => 0) (fun _ _ _ => true) false "meta"

/-- Concrete PAE logits used by the witness theorems. -/
def tpW : Fin 1 → Fin 1 → Fin 1 → Fin 1 → ℝ := fun _ _ _ _ => 0

/-- Concrete PDE logits used by the witness theorems. -/
def tdW : Fin 1 → Fin 1 → Fin 1 → Fin 1 → ℝ := fun _ _ _ _ => 0

/-- Concrete network outputs used by the witness theorems. -/
def outsW : Outputs 1 1 1 1 :=
  Outputs.mk () () (some tpW) (some tdW) () () () () (fun _ _ _ => 0) () () ()

/-- Concrete network forward oracle. -/
def modelW : InputFeats 1 → Outputs 1 1 1 1 := fun _ => outsW

/-- Concrete recycling feed oracle. -/
def feedW : Outputs 1 1 1 1 → InputFeats 1 → InputFeats 1 := fun _ f => f

/-- Concrete atom predicate. -/
def is_atomW : ℤ → Bool := fun _ => false

/-- Concrete chain-length oracle. -/
def lsW : (Fin 1 → Fin 1 → Fin 1 → Bool) → List ℕ := fun _ => [1]

/-- Concrete `writepdb` rendering oracle. -/
def renderW : WritePdbCall 1 → String := fun _ => "PDBTEXT"

/-- Concrete lDDT logits used by the C4 evaluation. -/
def predLddtsX : Fin 1 → Fin 1 → Fin 1 → ℝ := fun _ _ _ => 0

/-- Concrete sequence tensor used by the C4 evaluation. -/
def seqX : Fin 1 → Fin 1 → ℤ := fun _ _ => 0

/-- Concrete lDDT logits used by the C6 witness. -/
def predLddtsW : Fin 1 → Fin 2 → Fin 1 → ℝ := fun _ _ _ => 0

/-- Claim C10: `make_msa` calls `shutil.rmtree` on the per-chain output
directory unconditionally; when the directory does not exist it raises
`FileNotFoundError` before running the search, and when it does exist it
returns the three output paths regardless of the exit status of the search
subprocess, whose result is discarded. -/
theorem make_msa_behavior (fasta_file chain : String) (cfg : Config) (fs : FileSys)
    (o1 o2 : String → Int) :
    (msaOutDir cfg chain ∉ fs.dirs →
      make_msa fasta_file chain cfg fs o1 =
        ([], Except.error ("FileNotFoundError: " ++ msaOutDir cfg chain))) ∧
    (msaOutDir cfg chain ∈ fs.dirs →
      make_msa fasta_file chain cfg fs o1 = make_msa fasta_file chain cfg fs o2 ∧
      make_msa fasta_file chain cfg fs o1 =
        ([Event.rmtree (msaOutDir cfg chain), Event.mkdir (msaOutDir cfg chain),
          Event.subprocessRun (search_command cfg fasta_file (msaOutDir cfg chain))],
         Except.ok (FileSys.mk (msaOutDir cfg chain ::
             fs.dirs.filter (fun d => d ≠ msaOutDir cfg chain)),
           msaPaths cfg chain))) := by
  constructor
  · intro h
    simp only [make_msa, if_neg h]
  · intro h
    constructor <;> simp only [make_msa, if_pos h]

/-- Witness for C10, at a file system where the output directory for chain
`A` exists and one where it does not. -/
theorem make_msa_behavior_witness :
    make_msa "a.fa" "B" cfgW fsW subW =
      ([], Except.error ("FileNotFoundError: " ++ msaOutDir cfgW "B")) ∧
    make_msa "a.fa" "A" cfgW fsW subW = make_msa "a.fa" "A" cfgW fsW (fun _ => 1) :=
  ⟨(make_msa_behavior "a.fa" "B" cfgW fsW subW subW).1 (by decide),
   ((make_msa_behavior "a.fa" "A" cfgW fsW subW (fun _ => 1)).2 (by decide)).1⟩

/-- The recycling loop emits exactly one forward-pass event per cycle. -/
theorem recycle_trace {α β : Type} (model : α → β) (feed : β → α → α) :
    ∀ (n : ℕ) (a : α),
      (recycle_step_legacy model feed n a).1 = List.replicate n Event.modelForward
  | 0, _ => rfl
  | n + 1, a => by
    simp only [recycle_step_legacy, List.replicate]
    exact congrArg (Event.modelForward :: ·) (recycle_trace model feed n (feed (model a) a))

/-- Claim C2: `run_model_forward` runs the recycling loop for exactly
`config.loader_params.MAXCYCLE` cycles, whatever the input features are. -/
theorem run_model_forward_maxcycle {L nl np nd : ℕ} (cfg : Config)
    (model : InputFeats L → Outputs L nl np nd)
    (feed : Outputs L nl np nd → InputFeats L → InputFeats L) (device : String)
    (input_feats : InputFeats L) :
    (run_model_forward cfg model feed device input_feats).2.1 =
      List.replicate cfg.loader_params.MAXCYCLE Event.modelForward := by
  simp only [run_model_forward]
  exact recycle_trace model feed cfg.loader_params.MAXCYCLE _

/-- Claim C3: every construction of a `ModelManager` loads the checkpoint
during `__init__`: the resulting model holds the `model_state_dict` of the
checkpoint loaded from `checkpoint_path / checkpoint_weights`, and the
construction trace records the `torch.load` followed by
`load_state_dict`. -/
theorem construct_loads_checkpoint (device checkpoint_path checkpoint_weights template_db
    sequencedb_ur30 sequencedb_bfd msa_command : String) (base : Config)
    (torchLoad : String → Checkpoint) :
    (ModelManager.construct device checkpoint_path checkpoint_weights template_db
        sequencedb_ur30 sequencedb_bfd msa_command base torchLoad).1.model.state_dict =
      some (torchLoad (checkpoint_path ++ "/" ++ checkpoint_weights)).model_state_dict ∧
    (ModelManager.construct device checkpoint_path checkpoint_weights template_db
        sequencedb_ur30 sequencedb_bfd msa_command base torchLoad).2 =
      [Event.torchLoad (checkpoint_path ++ "/" ++ checkpoint_weights),
       Event.loadStateDict] :=
  ⟨rfl, rfl⟩

/-- Claim C4 (evaluation at the failing input): when a logit tensor passed
to `calc_pred_err` is `None`, the unguarded `pae.cpu()` in the dict literal
raises `AttributeError` instead of producing `None` entries. -/
theorem calc_pred_err_none_attribute_error :
    calc_pred_err (fun _ => false) predLddtsX
        (none : Option (Fin 1 → Fin 1 → Fin 1 → Fin 1 → ℝ))
        (none : Option (Fin 1 → Fin 1 → Fin 1 → Fin 1 → ℝ)) seqX =
      Except.error "AttributeError: NoneType object has no attribute cpu" := rfl

/-- Softmax entries are nonnegative. -/
theorem softmax_nonneg {n : ℕ} (x : Fin n → ℝ) (i : Fin n) : 0 ≤ softmax x i := by
  unfold softmax
  exact div_nonneg (Real.exp_pos _).le
    (Finset.sum_nonneg fun j _ => (Real.exp_pos _).le)

/-- Softmax entries sum to one (for a nonempty bin dimension). -/
theorem softmax_sum_one {n : ℕ} (hn : 0 < n) (x : Fin n → ℝ) :
    ∑ i : Fin n, softmax x i = 1 := by
  unfold softmax
  rw [← Finset.sum_div]
  have hne : (Finset.univ : Finset (Fin n)).Nonempty := ⟨⟨0, hn⟩, Finset.mem_univ _⟩
  exact div_self (Finset.sum_pos (fun j _ => Real.exp_pos _) hne).ne'

/-- The lDDT bins of `lddt_unbin` evaluate to `(k+1)/nbin`. -/
theorem linspace_lddt_eval {n : ℕ} (hn : 0 < n) (k : Fin n) :
    linspace (1 / (n : ℝ)) 1 n (k : ℕ) = (((k : ℕ) : ℝ) + 1) / (n : ℝ) := by
  unfold linspace
  rcases eq_or_lt_of_le hn with h1 | h1
  · have hn1 : n = 1 := h1.symm
    subst hn1
    have hk : (k : ℕ) = 0 := Nat.lt_one_iff.mp k.isLt
    simp [hk]
  · have hne : n ≠ 1 := by omega
    rw [if_neg hne]
    have hn0 : (n : ℝ) ≠ 0 := Nat.cast_ne_zero.mpr hn.ne'
    have h2 : (2 : ℝ) ≤ (n : ℝ) := by exact_mod_cast h1
    have hn1 : (n : ℝ) - 1 ≠ 0 := by linarith
    field_simp
    ring

/-- Claim C6: `lddt_unbin` returns the expectation of the bin centers
`linspace(1/nbin, 1, nbin)` under the softmax of the logits over the bin
dimension, and every returned per-residue lDDT value lies in
`[1/nbin, 1]`. -/
theorem lddt_unbin_expectation_range {B nbin L : ℕ} (hn : 0 < nbin)
    (pred_lddt : Fin B → Fin nbin → Fin L → ℝ) (b : Fin B) (l : Fin L) :
    lddt_unbin pred_lddt b l =
      (∑ k : Fin nbin,
        linspace (1 / (nbin : ℝ)) 1 nbin (k : ℕ) * softmax (fun j => pred_lddt b j l) k) ∧
    1 / (nbin : ℝ) ≤ lddt_unbin pred_lddt b l ∧ lddt_unbin pred_lddt b l ≤ 1 := by
  have hrfl : lddt_unbin pred_lddt b l =
      ∑ k : Fin nbin,
        linspace (1 / (nbin : ℝ)) 1 nbin (k : ℕ) * softmax (fun j => pred_lddt b j l) k := rfl
  have hnp : (0 : ℝ) < (nbin : ℝ) := Nat.cast_pos.mpr hn
  refine ⟨hrfl, ?_, ?_⟩
  · rw [hrfl]
    have hc : ∑ k : Fin nbin, softmax (fun j => pred_lddt b j l) k * (1 / (nbin : ℝ)) =
        1 / (nbin : ℝ) := by
      rw [← Finset.sum_mul, softmax_sum_one hn, one_mul]
    calc 1 / (nbin : ℝ)
        = ∑ k : Fin nbin, softmax (fun j => pred_lddt b j l) k * (1 / (nbin : ℝ)) := hc.symm
      _ ≤ ∑ k : Fin nbin,
            linspace (1 / (nbin : ℝ)) 1 nbin (k : ℕ) * softmax (fun j => pred_lddt b j l) k := by
          refine Finset.sum_le_sum fun k _ => ?_
          rw [linspace_lddt_eval hn k, mul_comm]
          refine mul_le_mul_of_nonneg_right ?_ (softmax_nonneg _ _)
          refine (div_le_div_iff_of_pos_right hnp).mpr ?_
          have : (0 : ℝ) ≤ ((k : ℕ) : ℝ) := Nat.cast_nonneg _
          linarith
  · rw [hrfl]
    have hc : ∑ k : Fin nbin, softmax (fun j => pred_lddt b j l) k = 1 :=
      softmax_sum_one hn _
    calc ∑ k : Fin nbin,
          linspace (1 / (nbin : ℝ)) 1 nbin (k : ℕ) * softmax (fun j => pred_lddt b j l) k
        ≤ ∑ k : Fin nbin, softmax (fun j => pred_lddt b j l) k := by
          refine Finset.sum_le_sum fun k _ => ?_
          rw [linspace_lddt_eval hn k]
          have hb : (((k : ℕ) : ℝ) + 1) / (nbin : ℝ) ≤ 1 := by
            rw [div_le_one hnp]
            exact_mod_cast Nat.succ_le_of_lt k.isLt
          calc (((k : ℕ) : ℝ) + 1) / (nbin : ℝ) * softmax (fun j => pred_lddt b j l) k
              ≤ 1 * softmax (fun j => pred_lddt b j l) k :=
                mul_le_mul_of_nonneg_right hb (softmax_nonneg _ _)
            _ = softmax (fun j => pred_lddt b j l) k := one_mul _
      _ = 1 := hc

/-- Witness for C6 at two bins and constant logits. -/
theorem lddt_unbin_expectation_range_witness :
    1 / ((2 : ℕ) : ℝ) ≤ lddt_unbin predLddtsW 0 0 ∧ lddt_unbin predLddtsW 0 0 ≤ 1 :=
  (lddt_unbin_expectation_range (by decide) predLddtsW 0 0).2

/-- Lookup of a key at the head of an association list. -/
theorem lookup_cons_self {β : Type} (k : String) (v : β) (t : List (String × β)) :
    List.lookup k ((k, v) :: t) = some v := by
  simp [List.lookup]

/-- Lookup skips a head with a different key. -/
theorem lookup_cons_ne {β : Type} {k a : String} (h : k ≠ a) (b : β) (t : List (String × β)) :
    List.lookup k ((a, b) :: t) = List.lookup k t := by
  simp [List.lookup, beq_eq_false_iff_ne.mpr h]

/-- A successful lookup survives appending on the right. -/
theorem lookup_append_of_some {β : Type} :
    ∀ (l₁ l₂ : List (String × β)) {k : String} {v : β},
      List.lookup k l₁ = some v → List.lookup k (l₁ ++ l₂) = some v
  | [], _, k, v, h => by simp [List.lookup] at h
  | (a, b) :: t, l₂, k, v, h => by
    by_cases hk : k = a
    · subst hk
      rw [lookup_cons_self] at h
      rw [List.cons_append, lookup_cons_self]
      exact h
    · rw [lookup_cons_ne hk] at h
      rw [List.cons_append, lookup_cons_ne hk]
      exact lookup_append_of_some t l₂ h

/-- Appending a fresh key makes it found. -/
theorem lookup_append_fresh {β : Type} :
    ∀ (l : List (String × β)) {k : String} (v : β),
      List.lookup k l = none → List.lookup k (l ++ [(k, v)]) = some v
  | [], k, v, _ => by simp [List.lookup]
  | (a, b) :: t, k, v, h => by
    by_cases hk : k = a
    · subst hk
      rw [lookup_cons_self] at h
      cases h
    · rw [lookup_cons_ne hk] at h
      rw [List.cons_append, lookup_cons_ne hk]
      exact lookup_append_fresh t v h

/-- Replacing the pairs carrying key `k` by `(k, v)` makes lookup of `k`
return `v`, provided `k` was present. -/
theorem lookup_map_set {k : String} (v : PyVal) :
    ∀ (d : List (String × PyVal)) {w : PyVal}, List.lookup k d = some w →
      List.lookup k (d.map (fun p => if p.1 = k then (k, v) else p)) = some v
  | [], w, h => by simp [List.lookup] at h
  | (a, b) :: t, w, h => by
    by_cases hk : a = k
    · subst hk
      simp only [List.map_cons, if_pos rfl]
      exact lookup_cons_self ..
    · have hk2 : k ≠ a := fun e => hk e.symm
      rw [lookup_cons_ne hk2] at h
      simp only [List.map_cons, if_neg hk]
      rw [lookup_cons_ne hk2]
      exact lookup_map_set v t h

/-- After `d[k] = v`, looking up `k` gives `v`. -/
theorem lookup_dictSet (d : List (String × PyVal)) (k : String) (v : PyVal) :
    List.lookup k (dictSet d k v) = some v := by
  unfold dictSet
  cases h : List.lookup k d with
  | none => simp only [h, Option.isSome_none, Bool.false_eq_true, if_false]
            exact lookup_append_fresh d v h
  | some w => simp only [h, Option.isSome_some, if_true]
              exact lookup_map_set v d h

/-- A pair with a different key survives `dictSet`. -/
theorem mem_dictSet_of_ne {d : List (String × PyVal)} {k : String} {v : PyVal}
    (h : (k, v) ∈ d) {k0 : String} (hne : k ≠ k0) (w : PyVal) :
    (k, v) ∈ dictSet d k0 w := by
  unfold dictSet
  split
  · exact List.mem_map.mpr ⟨(k, v), h, by simp [hne]⟩
  · exact List.mem_append_left _ h

/-- After the two comprehensions of `write_outputs`, a value is never a
tensor and never a NaN float. -/
theorem postVal_clean (v : PyVal) :
    (∀ t, nanToNone (tensorToList v) ≠ PyVal.tensor t) ∧
      nanToNone (tensorToList v) ≠ PyVal.float PyFloat.nan := by
  cases v with
  | tensor d => simp [tensorToList, nanToNone]
  | float f => cases f <;> simp [tensorToList, nanToNone]
  | pylist d => simp [tensorToList, nanToNone]
  | pynone => simp [tensorToList, nanToNone]

/-- Claim C9: the error dictionary returned by `write_outputs` contains no
tensor values (each tensor becomes a nested list), no NaN float values
(each becomes `None`), and no `same_chain` key, even though `same_chain`
is added to the dictionary during the call. -/
theorem write_outputs_err_dict_clean (d : List (String × PyVal)) (same_chain : PyVal) :
    (∀ p ∈ write_outputs_err_dict d same_chain,
      p.1 ≠ "same_chain" ∧ (∀ t, p.2 ≠ PyVal.tensor t) ∧ p.2 ≠ PyVal.float PyFloat.nan) ∧
    (∀ (k : String) (t : PyData), (k, PyVal.tensor t) ∈ d → k ≠ "same_chain" →
      (k, PyVal.pylist t) ∈ write_outputs_err_dict d same_chain) ∧
    (∀ k : String, (k, PyVal.float PyFloat.nan) ∈ d → k ≠ "same_chain" →
      (k, PyVal.pynone) ∈ write_outputs_err_dict d same_chain) ∧
    List.lookup "same_chain" (dictSet d "same_chain" same_chain) = some same_chain := by
  refine ⟨?_, ?_, ?_, lookup_dictSet d _ _⟩
  · intro p hp
    unfold write_outputs_err_dict errDictPostprocess at hp
    obtain ⟨q, hq, rfl⟩ := List.mem_map.mp hp
    obtain ⟨r, hr, rfl⟩ := List.mem_map.mp hq
    have hkey : r.1 ≠ "same_chain" := by
      have h2 := (List.mem_filter.mp hr).2
      simpa using h2
    exact ⟨hkey, (postVal_clean r.2).1, (postVal_clean r.2).2⟩
  · intro k t hk hne
    have h1 : (k, PyVal.tensor t) ∈ dictSet d "same_chain" same_chain :=
      mem_dictSet_of_ne hk hne _
    have h2 : (k, PyVal.tensor t) ∈ dictPop (dictSet d "same_chain" same_chain) "same_chain" :=
      List.mem_filter.mpr ⟨h1, by simpa using hne⟩
    unfold write_outputs_err_dict errDictPostprocess
    exact List.mem_map.mpr
      ⟨(k, PyVal.pylist t), List.mem_map.mpr ⟨(k, PyVal.tensor t), h2, rfl⟩, rfl⟩
  · intro k hk hne
    have h1 : (k, PyVal.float PyFloat.nan) ∈ dictSet d "same_chain" same_chain :=
      mem_dictSet_of_ne hk hne _
    have h2 : (k, PyVal.float PyFloat.nan) ∈
        dictPop (dictSet d "same_chain" same_chain) "same_chain" :=
      List.mem_filter.mpr ⟨h1, by simpa using hne⟩
    unfold write_outputs_err_dict errDictPostprocess
    exact List.mem_map.mpr
      ⟨(k, PyVal.float PyFloat.nan),
       List.mem_map.mpr ⟨(k, PyVal.float PyFloat.nan), h2, rfl⟩, rfl⟩

/-- Witness for C9 on a one-entry dictionary holding a tensor. -/
theorem write_outputs_err_dict_clean_witness :
    ("plddts", PyVal.pylist (PyData.scalar 0)) ∈
      write_outputs_err_dict [("plddts", PyVal.tensor (PyData.scalar 0))] PyVal.pynone :=
  (write_outputs_err_dict_clean [("plddts", PyVal.tensor (PyData.scalar 0))] PyVal.pynone).2.1
    "plddts" (PyData.scalar 0) (List.mem_singleton.mpr rfl) (by decide)

/-- The nucleic-acid loop loads every chain unconditionally. -/
theorem parseNALoop_map :
    ∀ ns : List (String × NAInputSpec),
      parseNALoop ns = ns.map (fun p => (p.1, load_nucleic_acid p.2.fasta p.2.input_type))
  | [] => rfl
  | (c, s) :: t => by
    simp only [parseNALoop, List.map_cons]
    exact congrArg _ (parseNALoop_map t)

/-- The small-molecule loop succeeds whenever every entry has a valid input
type and no `is_leaving` key, regardless of the chain names. -/
theorem parseSMLoop_total :
    ∀ (ss : List (String × SMInputSpec)) (acc : List (String × SMInput)),
      (∀ p ∈ ss, (p.2.input_type = "smiles" ∨ p.2.input_type = "sdf") ∧
        p.2.has_is_leaving = false) →
      ∃ res, parseSMLoop ss acc = Except.ok res
  | [], acc, _ => ⟨acc, rfl⟩
  | (c, s) :: t, acc, h => by
    have hh1 : s.input_type = "smiles" ∨ s.input_type = "sdf" :=
      (h (c, s) (List.mem_cons_self _ _)).1
    have hh2 : s.has_is_leaving = false := (h (c, s) (List.mem_cons_self _ _)).2
    have ht : ∀ p ∈ t, (p.2.input_type = "smiles" ∨ p.2.input_type = "sdf") ∧
        p.2.has_is_leaving = false := fun p hp => h p (List.mem_cons_of_mem _ hp)
    have hty : ¬ s.input_type ∉ ["smiles", "sdf"] := by
      rcases hh1 with h1 | h1 <;> simp [h1]
    rw [parseSMLoop, if_neg hty]
    by_cases hl : (acc.lookup c).isSome
    · rw [if_pos hl]
      exact parseSMLoop_total t acc ht
    · rw [if_neg hl, if_neg (by simp [hh2])]
      exact parseSMLoop_total t _ ht

/-- Claim C8: `parse_inference_config` validates protein chain names — a
duplicate name or a name longer than one character raises `ValueError`
before any MSA is generated for the offending chain (the returned trace is
empty of events for it), while nucleic-acid chains are loaded without any
name check and small-molecule chains are only checked for input type and
`is_leaving`, not for their names. -/
theorem protein_chain_validation (cfg : Config) (subprocessExit : String → Int)
    (chain : String) (s : ProteinInputSpec) (rest : List (String × ProteinInputSpec))
    (chains : List String) (fs : FileSys) :
    (chain ∈ chains →
      parseProteinLoop cfg subprocessExit ((chain, s) :: rest) chains fs =
        ([], Except.error ("Duplicate chain found with name: " ++ chain ++
          ". Please specify unique chain names"))) ∧
    (chain ∉ chains → chain.length > 1 →
      parseProteinLoop cfg subprocessExit ((chain, s) :: rest) chains fs =
        ([], Except.error ("Chain name must be a single character, found chain with name: " ++
          chain))) ∧
    (∀ ns : List (String × NAInputSpec),
      parseNALoop ns = ns.map (fun p => (p.1, load_nucleic_acid p.2.fasta p.2.input_type))) ∧
    (∀ (ss : List (String × SMInputSpec)) (acc : List (String × SMInput)),
      (∀ p ∈ ss, (p.2.input_type = "smiles" ∨ p.2.input_type = "sdf") ∧
        p.2.has_is_leaving = false) →
      ∃ res, parseSMLoop ss acc = Except.ok res) := by
  refine ⟨?_, ?_, parseNALoop_map, parseSMLoop_total⟩
  · intro h
    rw [parseProteinLoop, if_pos h]
  · intro h1 h2
    rw [parseProteinLoop, if_neg h1, if_pos h2]

/-- Witness for C8: a duplicate chain name and a two-character chain name
both raise, with an empty event trace. -/
theorem protein_chain_validation_witness :
    parseProteinLoop cfgW subW [("A", ProteinInputSpec.mk "a.fa")] ["A"] fsW =
      ([], Except.error ("Duplicate chain found with name: " ++ "A" ++
        ". Please specify unique chain names")) ∧
    parseProteinLoop cfgW subW [("XY", ProteinInputSpec.mk "b.fa")] [] fsW =
      ([], Except.error ("Chain name must be a single character, found chain with name: " ++
        "XY")) :=
  ⟨(protein_chain_validation cfgW subW "A" (ProteinInputSpec.mk "a.fa") [] ["A"] fsW).1
      (by decide),
   ((protein_chain_validation cfgW subW "XY" (ProteinInputSpec.mk "b.fa") [] [] fsW).2.1
      (by decide) (by decide))⟩

/-- The small-molecule loop never overrides an entry already present in the
accumulator: chains already processed as covale are skipped. -/
theorem parseSMLoop_preserves :
    ∀ (ss : List (String × SMInputSpec)) (acc res : List (String × SMInput)),
      parseSMLoop ss acc = Except.ok res →
      ∀ {c : String} {v : SMInput}, List.lookup c acc = some v → List.lookup c res = some v
  | [], acc, res, h, c, v, hc => by
    rw [parseSMLoop] at h
    cases h
    exact hc
  | (ch, s) :: t, acc, res, h, c, v, hc => by
    rw [parseSMLoop] at h
    by_cases h1 : s.input_type ∉ ["smiles", "sdf"]
    · rw [if_pos h1] at h; cases h
    · rw [if_neg h1] at h
      by_cases h2 : (acc.lookup ch).isSome
      · rw [if_pos h2] at h
        exact parseSMLoop_preserves t acc res h hc
      · rw [if_neg h2] at h
        by_cases h3 : s.has_is_leaving = true
        · rw [if_pos h3] at h; cases h
        · rw [if_neg h3] at h
          exact parseSMLoop_preserves t _ res h (lookup_append_of_some acc _ hc)

/-- Claim C7: covalent linkages take precedence over plain small-molecule
inputs — `covale_inputs` is processed before `sm_inputs`, chains already
produced by `load_covalent_molecules` are skipped in the small-molecule
loop, and the merged `sm_inputs` holds the covalent version of such a
chain. -/
theorem covalent_precedence (cfg : Config) (det : Bool) (subprocessExit : String → Int)
    (load_cov : LoadCov) (fs : FileSys) (ic : InputConfig) (tr : List Event)
    (fs1 : FileSys) (raw : RawData) (c : String) (v : SMInput)
    (hparse : parse_inference_config cfg det subprocessExit load_cov fs ic =
      (tr, Except.ok (fs1, raw)))
    (hcov : ic.covale_inputs.isSome)
    (hc : List.lookup c (load_cov raw.protein_inputs ic).1 = some v) :
    List.lookup c raw.sm_inputs = some v := by
  rw [parse_inference_config] at hparse
  cases hP : proteinPhase cfg subprocessExit fs ic.protein_inputs with
  | mk trP rP =>
    rw [hP] at hparse
    cases rP with
    | error e => simp at hparse
    | ok w =>
      obtain ⟨fsa, chs, prots⟩ := w
      dsimp only at hparse
      cases hS : smPhase ic (covalePhase load_cov prots ic).1 with
      | error e => rw [hS] at hparse; simp at hparse
      | ok sm =>
        rw [hS] at hparse
        cases hr : cfg.residue_replacement with
        | some x => rw [hr] at hparse; simp at hparse
        | none =>
          rw [hr] at hparse
          dsimp only at hparse
          simp only [Prod.mk.injEq, Except.ok.injEq] at hparse
          obtain ⟨-, -, hraw⟩ := hparse
          subst hraw
          obtain ⟨x, hx⟩ := Option.isSome_iff_exists.mp hcov
          have hcphase : covalePhase load_cov prots ic = load_cov prots ic := by
            unfold covalePhase
            rw [hx]
          rw [smPhase] at hS
          cases hsm : ic.sm_inputs with
          | none =>
            rw [hsm] at hS
            dsimp only at hS
            cases hS
            show List.lookup c (covalePhase load_cov prots ic).1 = some v
            rw [hcphase]
            exact hc
          | some ss =>
            rw [hsm] at hS
            dsimp only at hS
            refine parseSMLoop_preserves ss _ sm hS ?_
            show List.lookup c (covalePhase load_cov prots ic).1 = some v
            rw [hcphase]
            exact hc

/-- Witness for C7: the covalent version of chain `L` survives a plain
small-molecule entry on the same chain. -/
theorem covalent_precedence_witness :
    List.lookup "L"
      (RawData.mk ([] : List (String × ProteinInput)) [] [("L", SMInput.covalent "cov-ligand")]
        [] false).sm_inputs = some (SMInput.covalent "cov-ligand") :=
  covalent_precedence cfgW false subW covW fsW icCW [] fsW
    (RawData.mk [] [] [("L", SMInput.covalent "cov-ligand")] [] false)
    "L" (SMInput.covalent "cov-ligand") rfl rfl (by decide)

/-- A successful `make_msa` returns the canonical paths and a trace ending
in the subprocess run of the search command. -/
theorem make_msa_ok_inv {fasta_file chain : String} {cfg : Config} {fs : FileSys}
    {subprocessExit : String → Int} {tr : List Event} {fs2 : FileSys}
    {paths : String × String × String}
    (h : make_msa fasta_file chain cfg fs subprocessExit = (tr, Except.ok (fs2, paths))) :
    paths = msaPaths cfg chain ∧
    Event.subprocessRun (search_command cfg fasta_file (msaOutDir cfg chain)) ∈ tr := by
  by_cases hm : msaOutDir cfg chain ∈ fs.dirs
  · rw [make_msa, if_pos hm] at h
    simp only [Prod.mk.injEq, Except.ok.injEq] at h
    obtain ⟨htr, -, hp⟩ := h
    subst htr
    exact ⟨hp.symm, by simp⟩
  · rw [make_msa, if_neg hm] at h
    simp at h

/-- A successfully loaded protein records the fasta file and the `make_msa`
result paths, and its trace holds the subprocess run. -/
theorem generate_ok_inv {fasta_file chain : String} {cfg : Config} {fs : FileSys}
    {subprocessExit : String → Int} {tr : List Event} {fs2 : FileSys} {pin : ProteinInput}
    (h : generate_msa_and_load_protein fasta_file chain cfg fs subprocessExit =
      (tr, Except.ok (fs2, pin))) :
    pin.fasta_file = fasta_file ∧ pin.msa = msaPaths cfg chain ∧
    Event.subprocessRun (search_command cfg fasta_file (msaOutDir cfg chain)) ∈ tr := by
  rw [generate_msa_and_load_protein] at h
  cases hm : make_msa fasta_file chain cfg fs subprocessExit with
  | mk trm rm =>
    rw [hm] at h
    cases rm with
    | error e => simp at h
    | ok w =>
      obtain ⟨fsm, paths⟩ := w
      dsimp only at h
      simp only [Prod.mk.injEq, Except.ok.injEq] at h
      obtain ⟨htr, -, hpin⟩ := h
      obtain ⟨hpaths, hev⟩ := make_msa_ok_inv hm
      subst htr
      subst hpin
      exact ⟨rfl, hpaths, hev⟩

/-- Every chain processed by a successful protein loop appears in the
result, loaded from its fasta file, with the canonical MSA result paths and
a subprocess run of the search command in the trace. -/
theorem parseProteinLoop_msa (cfg : Config) (subprocessExit : String → Int) :
    ∀ (specs : List (String × ProteinInputSpec)) (chains : List String) (fs : FileSys)
      {tr : List Event} {fs2 : FileSys} {chains2 : List String}
      {pins : List (String × ProteinInput)},
      parseProteinLoop cfg subprocessExit specs chains fs =
        (tr, Except.ok (fs2, chains2, pins)) →
      ∀ p ∈ specs, ∃ pin : ProteinInput,
        (p.1, pin) ∈ pins ∧ pin.fasta_file = p.2.fasta_file ∧
        pin.msa = msaPaths cfg p.1 ∧
        Event.subprocessRun (search_command cfg p.2.fasta_file (msaOutDir cfg p.1)) ∈ tr
  | [], chains, fs, tr, fs2, chains2, pins, h, p, hp => absurd hp (List.not_mem_nil p)
  | (c, s) :: rest, chains, fs, tr, fs2, chains2, pins, h, p, hp => by
    rw [parseProteinLoop] at h
    by_cases h1 : c ∈ chains
    · rw [if_pos h1] at h; simp at h
    · rw [if_neg h1] at h
      by_cases h2 : c.length > 1
      · rw [if_pos h2] at h; simp at h
      · rw [if_neg h2] at h
        cases hg : generate_msa_and_load_protein s.fasta_file c cfg fs subprocessExit with
        | mk trg rg =>
          rw [hg] at h
          cases rg with
          | error e => simp at h
          | ok w =>
            obtain ⟨fsg, pin0⟩ := w
            dsimp only at h
            cases hrec : parseProteinLoop cfg subprocessExit rest (chains ++ [c]) fsg with
            | mk tr2 r2 =>
              rw [hrec] at h
              cases r2 with
              | error e => simp at h
              | ok w2 =>
                obtain ⟨fs3, chains3, acc⟩ := w2
                dsimp only at h
                simp only [Prod.mk.injEq, Except.ok.injEq] at h
                obtain ⟨htr, -, -, hpins⟩ := h
                subst htr
                subst hpins
                rcases List.mem_cons.mp hp with rfl | hp2
                · obtain ⟨hf, hmsa, hev⟩ := generate_ok_inv hg
                  exact ⟨pin0, List.mem_cons_self _ _, hf, hmsa,
                    List.mem_append_left _ hev⟩
                · obtain ⟨pin, hmem, hf, hmsa, hev⟩ :=
                    parseProteinLoop_msa cfg subprocessExit rest (chains ++ [c]) fsg hrec p hp2
                  exact ⟨pin, List.mem_cons_of_mem _ hmem, hf, hmsa,
                    List.mem_append_right _ hev⟩

/-- Claim C5: every protein chain of `input_config.protein_inputs` is
assembled via MSA search — `parse_inference_config` runs
`generate_msa_and_load_protein` on the fasta file of the chain, and
`make_msa` runs the configured search command as a subprocess and returns
the three result paths under `output_path/msa_results/<chain>`. -/
theorem msa_per_protein_chain (cfg : Config) (det : Bool) (subprocessExit : String → Int)
    (load_cov : LoadCov) (fs : FileSys) (ic : InputConfig)
    (ps : List (String × ProteinInputSpec)) (tr : List Event) (fs1 : FileSys) (raw : RawData)
    (hps : ic.protein_inputs = some ps)
    (hparse : parse_inference_config cfg det subprocessExit load_cov fs ic =
      (tr, Except.ok (fs1, raw))) :
    ∀ p ∈ ps, ∃ pin : ProteinInput,
      (p.1, pin) ∈ raw.protein_inputs ∧ pin.fasta_file = p.2.fasta_file ∧
      pin.msa = msaPaths cfg p.1 ∧
      Event.subprocessRun (search_command cfg p.2.fasta_file (msaOutDir cfg p.1)) ∈ tr := by
  rw [parse_inference_config, hps] at hparse
  cases hP : parseProteinLoop cfg subprocessExit ps [] fs with
  | mk trP rP =>
    rw [show proteinPhase cfg subprocessExit fs (some ps) =
      parseProteinLoop cfg subprocessExit ps [] fs from rfl, hP] at hparse
    cases rP with
    | error e => simp at hparse
    | ok w =>
      obtain ⟨fsa, chs, prots⟩ := w
      dsimp only at hparse
      cases hS : smPhase ic (covalePhase load_cov prots ic).1 with
      | error e => rw [hS] at hparse; simp at hparse
      | ok sm =>
        rw [hS] at hparse
        cases hr : cfg.residue_replacement with
        | some x => rw [hr] at hparse; simp at hparse
        | none =>
          rw [hr] at hparse
          dsimp only at hparse
          simp only [Prod.mk.injEq, Except.ok.injEq] at hparse
          obtain ⟨htr, -, hraw⟩ := hparse
          subst htr
          subst hraw
          exact parseProteinLoop_msa cfg subprocessExit ps [] fs hP

/-- Witness for C5 with a single protein chain `A`. -/
theorem msa_per_protein_chain_witness :
    ∃ pin : ProteinInput,
      ("A", pin) ∈ (RawData.mk [("A", ProteinInput.mk "a.fa" (msaPaths cfgW "A"))] [] [] []
        false).protein_inputs ∧
      pin.fasta_file = "a.fa" ∧ pin.msa = msaPaths cfgW "A" ∧
      Event.subprocessRun (search_command cfgW "a.fa" (msaOutDir cfgW "A")) ∈
        [Event.rmtree (msaOutDir cfgW "A"), Event.mkdir (msaOutDir cfgW "A"),
         Event.subprocessRun (search_command cfgW "a.fa" (msaOutDir cfgW "A"))] :=
  msa_per_protein_chain cfgW false subW covW fsW icPW [("A", ProteinInputSpec.mk "a.fa")]
    [Event.rmtree (msaOutDir cfgW "A"), Event.mkdir (msaOutDir cfgW "A"),
     Event.subprocessRun (search_command cfgW "a.fa" (msaOutDir cfgW "A"))]
    (FileSys.mk [msaOutDir cfgW "A"])
    (RawData.mk [("A", ProteinInput.mk "a.fa" (msaPaths cfgW "A"))] [] [] [] false)
    rfl rfl ("A", ProteinInputSpec.mk "a.fa") (List.mem_singleton.mpr rfl)

/-- When both logit tensors are present, `calc_pred_err` returns the
dictionary of confidence metrics. -/
theorem calc_pred_err_some_ok {nl np nd L : ℕ} (is_atom : ℤ → Bool)
    (pred_lddts : Fin 1 → Fin nl → Fin L → ℝ)
    (tp : Fin 1 → Fin np → Fin L → Fin L → ℝ) (td : Fin 1 → Fin nd → Fin L → Fin L → ℝ)
    (seq : Fin 1 → Fin L → ℤ) :
    calc_pred_err is_atom pred_lddts (some tp) (some td) seq =
      Except.ok (calcErrDict is_atom pred_lddts tp td seq) := rfl

/-- Claim C1: `infer` executes the pipeline in the fixed order
`parse_inference_config`, `construct_features`, `run_model_forward`,
`write_outputs` (the returned trace is the parse trace, then the forward
trace, then the write trace, and each stage consumes the output of the
previous one), and on a successful run it returns the dict whose `pdb`
entry is the PDB string and whose `error_dictionary` entry holds the
processed per-residue confidence metrics. -/
theorem infer_pipeline {L nl np nd : ℕ} (mgr : ModelManager)
    (subprocessExit : String → Int) (load_cov : LoadCov) (fs : FileSys)
    (constructF : RawData → InputFeats L) (model : InputFeats L → Outputs L nl np nd)
    (feed : Outputs L nl np nd → InputFeats L → InputFeats L) (is_atom : ℤ → Bool)
    (ls_from_same_chain_2d : (Fin 1 → Fin L → Fin L → Bool) → List ℕ)
    (render : WritePdbCall L → String) (ic : InputConfig) (tr : List Event)
    (fs1 : FileSys) (raw : RawData) (outs : Outputs L nl np nd)
    (tp : Fin 1 → Fin np → Fin L → Fin L → ℝ) (td : Fin 1 → Fin nd → Fin L → Fin L → ℝ)
    (hparse : parse_inference_config mgr.config mgr.deterministic subprocessExit load_cov fs ic
      = (tr, Except.ok (fs1, raw)))
    (hout : (run_model_forward mgr.config model feed mgr.device (constructF raw)).2.2 =
      some outs)
    (hpae : outs.logits_pae = some tp) (hpde : outs.logits_pde = some td) :
    infer mgr subprocessExit load_cov fs constructF model feed is_atom
        ls_from_same_chain_2d render ic =
      (tr ++ (run_model_forward mgr.config model feed mgr.device (constructF raw)).2.1 ++
        (write_outputs mgr.config is_atom ls_from_same_chain_2d render
          (run_model_forward mgr.config model feed mgr.device (constructF raw)).1 outs).1,
       (write_outputs mgr.config is_atom ls_from_same_chain_2d render
          (run_model_forward mgr.config model feed mgr.device (constructF raw)).1 outs).2) ∧
    ∃ pdb_str : String,
      (write_outputs mgr.config is_atom ls_from_same_chain_2d render
          (run_model_forward mgr.config model feed mgr.device (constructF raw)).1 outs).2 =
        Except.ok
          [("pdb", ResVal.str pdb_str),
           ("error_dictionary", ResVal.dict (write_outputs_err_dict
             (calcErrDict is_atom outs.lddt tp td
               (run_model_forward mgr.config model feed mgr.device
                 (constructF raw)).1.seq_unmasked)
             (PyVal.tensor (boolTens3Data
               (run_model_forward mgr.config model feed mgr.device
                 (constructF raw)).1.same_chain))))] := by
  constructor
  · simp only [infer]
    rw [hparse]
    dsimp only
    rw [hout]
  · simp only [write_outputs]
    rw [hpae, hpde, calc_pred_err_some_ok]
    exact ⟨_, rfl⟩

/-- Witness for C1 on the empty input configuration and a one-cycle model
with concrete logits. -/
theorem infer_pipeline_witness :
    (infer mgrW subW covW fsW constructW modelW feedW is_atomW lsW renderW icEW =
      (([] : List Event) ++
        (run_model_forward mgrW.config modelW feedW mgrW.device (constructW rawEW)).2.1 ++
        (write_outputs mgrW.config is_atomW lsW renderW
          (run_model_forward mgrW.config modelW feedW mgrW.device (constructW rawEW)).1
          outsW).1,
       (write_outputs mgrW.config is_atomW lsW renderW
          (run_model_forward mgrW.config modelW feedW mgrW.device (constructW rawEW)).1
          outsW).2)) ∧
    ∃ pdb_str : String,
      (write_outputs mgrW.config is_atomW lsW renderW
          (run_model_forward mgrW.config modelW feedW mgrW.device (constructW rawEW)).1
          outsW).2 =
        Except.ok
          [("pdb", ResVal.str pdb_str),
           ("error_dictionary", ResVal.dict (write_outputs_err_dict
             (calcErrDict is_atomW outsW.lddt tpW tdW
               (run_model_forward mgrW.config modelW feedW mgrW.device
                 (constructW rawEW)).1.seq_unmasked)
             (PyVal.tensor (boolTens3Data
               (run_model_forward mgrW.config modelW feedW mgrW.device
                 (constructW rawEW)).1.same_chain))))] :=
  infer_pipeline mgrW subW covW fsW constructW modelW feedW is_atomW lsW renderW icEW
    [] fsW rawEW outsW tpW tdW rfl rfl rfl rfl

end RF2AA
